/-
Verification of the metrics aggregation core of
`src/lit_nlp/client/modules/metrics_module.ts` (class `MetricsModule`).

The TypeScript module keeps an observable `metricsMap` (a string-keyed
object of `MetricsRow` records), a `pendingCalls` counter for the loading
spinner, and reacts to dataset/selection/slice/facet changes by fetching
per-model metrics and upserting them into the map.

Shallow embedding conventions:
- JS string-keyed objects become insertion-ordered association lists
  `List (String × α)`; `obj[k]` is `objGet`, `obj[k] = v` is `objSet`
  (update-in-place keeps the original position, as in JS), and
  `delete obj[k]` during a key walk is a `filter`.
- JS numbers carried by metric values are modelled as rationals `ℚ`
  (the module only branches on wholeness and formats with `toFixed(3)`).
- The asynchronous batch fetch (`Promise.all` over one `getMetrics` call
  per model, lines 141-148) is an explicit `Except` parameter: `.ok`
  carries the per-model responses, `.error` models a rejection of any
  request in the batch.  `getMetrics` returning `undefined` for an empty
  input batch (line 247) is modelled as `none` entries.
- A thrown JS `TypeError` escaping the async body (e.g.
  `Object.keys(undefined)` at line 157) is the `.error` component of the
  result pair.
-/
import Mathlib

namespace MetricsMod

/-- `Source` enum (metrics_module.ts lines 48-52). -/
inductive Source where
  | dataset
  | selection
  | slice
deriving DecidableEq, Repr

/-- `source.toString()` for the TS string enum. -/
def sourceStr : Source → String
  | Source.dataset => "dataset"
  | Source.selection => "selection"
  | Source.slice => "slice"

/-- `FacetMap` (lib/types): feature name → feature value, insertion ordered. -/
abbrev FacetMap := List (String × String)

/-- `MetricsValues` (lines 44-46): metric name → numeric value. -/
abbrev MetricsValues := List (String × ℚ)

/-- `ModelHeadMetrics` (lines 40-42): metrics-generator name → `MetricsValues`. -/
abbrev ModelHeadMetrics := List (String × MetricsValues)

/-- `MetricsResponse` (lines 34-38): one per-field entry from the server. -/
structure MetricsResponse where
  pred_key : String
  label_key : String
  metrics : MetricsValues
deriving DecidableEq, Repr

/-- One model's response from `getMetrics`: metrics-generator name →
list of `MetricsResponse` (the shape walked at lines 157-159). -/
abbrev ModelResponse := List (String × List MetricsResponse)

/-- `MetricsRow` (lines 55-63). -/
structure MetricsRow where
  model : String
  selection : String
  predKey : String
  exampleIds : List String
  headMetrics : ModelHeadMetrics
  source : Source
  facets : Option FacetMap
deriving DecidableEq, Repr

/-- `MetricsMap` (lines 65-67): row key → `MetricsRow`. -/
abbrev MetricsMap := List (String × MetricsRow)

/-- `IndexedInput` as used by this module: only `.id` is read (lines 166, 173). -/
structure IndexedInput where
  id : String
deriving DecidableEq, Repr

/-- The module's mutable state relevant to the claims:
`metricsMap` (line 95) and `pendingCalls` (line 98). -/
structure ModState where
  metricsMap : MetricsMap
  pendingCalls : Int
deriving DecidableEq, Repr

/-- JS object read `obj[k]`: first (and only) binding for `k`. -/
def objGet (k : String) : List (String × α) → Option α
  | [] => none
  | p :: rest => if p.1 = k then some p.2 else objGet k rest

/-- JS object write `obj[k] = v`: replaces the binding in place if `k` is
present (JS keeps the original insertion position), else appends. -/
def objSet (k : String) (v : α) : List (String × α) → List (String × α)
  | [] => [(k, v)]
  | p :: rest => if p.1 = k then (k, v) :: rest else p :: objSet k v rest

/-- `getRowKey` (lines 186-195): facet values concatenated with `-`, then
`model-datapointsId-predKey-facetString` by template-literal concatenation. -/
def facetStringOf : Option FacetMap → String
  | none => ""
  | some fm => fm.foldl (fun acc p => acc ++ p.2 ++ "-") ""

/-- `getRowKey(model, datapointsId, predKey, facetMap?)` (lines 186-195). -/
def getRowKey (model datapointsId predKey : String) (facetMap : Option FacetMap) : String :=
  model ++ "-" ++ datapointsId ++ "-" ++ predKey ++ "-" ++ facetStringOf facetMap

/-- The ordered list of facet values `Object.values(facetMap)` that
`getRowKey` actually consumes; an absent map contributes none. -/
def facetValues : Option FacetMap → List String
  | none => []
  | some fm => fm.map (fun p => p.2)

/-- The body of the inner `metricsRespones.forEach` at lines 159-180: one
upsert of the row keyed by `getRowKey(models[i], name, pred_key, facetMap)`.
`exampleIds` is the precomputed `datapoints.map(d => d.id)`. -/
def applyResponse (model name : String) (facetMap : Option FacetMap) (source : Source)
    (exampleIds : List String) (metricsType : String) (resp : MetricsResponse)
    (m : MetricsMap) : MetricsMap :=
  let rowKey := getRowKey model name resp.pred_key facetMap
  let m1 :=
    match objGet rowKey m with
    | none =>
        objSet rowKey
          { model := model, selection := name, predKey := resp.pred_key,
            exampleIds := exampleIds, headMetrics := [], source := source,
            facets := facetMap } m
    | some _ => m
  match objGet rowKey m1 with
  | none => m1
  | some row =>
      objSet rowKey
        { row with exampleIds := exampleIds,
                   headMetrics := objSet metricsType resp.metrics row.headMetrics } m1

/-- Lines 157-181 for a single model's returned metrics: walk every
generator (`metricsType`) and every `MetricsResponse` in order. -/
def processModel (model name : String) (facetMap : Option FacetMap) (source : Source)
    (exampleIds : List String) (returned : ModelResponse) (m : MetricsMap) : MetricsMap :=
  returned.foldl
    (fun acc p =>
      p.2.foldl (fun a r => applyResponse model name facetMap source exampleIds p.1 r a) acc)
    m

/-- The `datasetMetrics.forEach` at line 156: each element is one model's
response; an `undefined` element (empty-input `getMetrics`, line 247) hits
`Object.keys(undefined)` and throws a `TypeError`, aborting the walk. -/
def processAll (name : String) (facetMap : Option FacetMap) (source : Source)
    (exampleIds : List String) :
    List (String × Option ModelResponse) → MetricsMap → MetricsMap × Except Unit Unit
  | [], m => (m, Except.ok ())
  | (_, none) :: _, m => (m, Except.error ())
  | (model, some r) :: rest, m =>
      processAll name facetMap source exampleIds rest
        (processModel model name facetMap source exampleIds r m)

/-- `addMetrics(datapoints, source, facetMap?, displayName?)` (lines 134-183).
`models` is `appState.currentModels`; `fetch` is the joint outcome of the
`Promise.all` batch when the datapoints are non-empty.  Returns the new
state and `.error ()` when the body throws (TypeError on an `undefined`
per-model response). -/
def addMetrics (st : ModState) (models : List String) (datapoints : List IndexedInput)
    (source : Source) (facetMap : Option FacetMap) (displayName : Option String)
    (fetch : Except Unit (List ModelResponse)) : ModState × Except Unit Unit :=
  let pending1 := st.pendingCalls + 1
  let dmE : Except Unit (List (Option ModelResponse)) :=
    if datapoints.isEmpty then Except.ok (models.map fun _ => none)
    else
      match fetch with
      | Except.ok rs => Except.ok (rs.map some)
      | Except.error e => Except.error e
  let dm : List (Option ModelResponse) :=
    match dmE with
    | Except.ok l => l
    | Except.error _ => []
  let pending2 := pending1 - 1
  let name0 := displayName.getD (sourceStr source)
  let name := if facetMap.isSome then name0 ++ " (faceted)" else name0
  let exampleIds := datapoints.map (fun d => d.id)
  let pr := processAll name facetMap source exampleIds (models.zip dm) st.metricsMap
  ({ metricsMap := pr.1, pendingCalls := pending2 }, pr.2)

/-- `source === Source.SELECTION` test used by the purge at line 108. -/
def isSelectionSource : Source → Bool
  | Source.selection => true
  | _ => false

/-- Lines 107-111: on selection change, walk the keys and delete every row
whose `source` is `SELECTION`. -/
def selectionPurge (m : MetricsMap) : MetricsMap :=
  m.filter fun p => !(isSelectionSource p.2.source)

/-- One `addMetrics` invocation scheduled by the faceting code. -/
structure AddCall where
  datapoints : List IndexedInput
  source : Source
  facetMap : Option FacetMap
deriving DecidableEq, Repr

/-- `updateFacetedMetrics(datapoints, isSelection)` (lines 197-212): when at
least one facet dimension is selected, partition via the external
`groupService.groupExamplesByFeatures` (the `group` parameter) and schedule
one `addMetrics` per group with that group's facet map. -/
def updateFacetedMetrics
    (group : List IndexedInput → List String → List (List IndexedInput × FacetMap))
    (selectedFacets : List String) (datapoints : List IndexedInput)
    (isSelection : Bool) : List AddCall :=
  if 0 < selectedFacets.length then
    (group datapoints selectedFacets).map fun g =>
      { datapoints := g.1,
        source := if isSelection then Source.selection else Source.dataset,
        facetMap := some g.2 }
  else []

/-- `updateAllFacetedMetrics` (lines 214-225): delete every row carrying a
facet map, then, only if a facet dimension is selected, re-trigger faceted
aggregation for the current selection and the full dataset. -/
def updateAllFacetedMetrics
    (group : List IndexedInput → List String → List (List IndexedInput × FacetMap))
    (selectedFacets : List String) (selData dsData : List IndexedInput)
    (m : MetricsMap) : MetricsMap × List AddCall :=
  let m1 := m.filter fun p => p.2.facets.isNone
  (m1,
    if 0 < selectedFacets.length then
      updateFacetedMetrics group selectedFacets selData true ++
        updateFacetedMetrics group selectedFacets dsData false
    else [])

/-- A cell of the rendered table: JS pushes either a raw number or a string. -/
inductive Cell where
  | num (q : ℚ)
  | str (s : String)
deriving DecidableEq, Repr

/-- JS `s.split(": ")` on character lists: split at each non-overlapping
leftmost occurrence of the two-character separator `": "`. -/
def splitColon : List Char → List (List Char)
  | [] => [[]]
  | [c] => [[c]]
  | c :: d :: rest =>
      if c = ':' ∧ d = ' ' then [] :: splitColon rest
      else
        match splitColon (d :: rest) with
        | [] => [[c]]
        | h :: t => (c :: h) :: t

/-- `metricKey.split(": ")` (line 274). -/
def jsSplitColonSpace (s : String) : List String :=
  (splitColon s.data).map fun l => String.mk l

/-- Left-pad to three digits for the fractional part of `toFixed(3)`. -/
def pad3 (m : Nat) : String :=
  if m < 10 then "00" ++ toString m
  else if m < 100 then "0" ++ toString m
  else toString m

/-- `x.toFixed(3)` for a non-negative rational: the integer `n` nearest to
`x * 1000`, ties to the larger `n` (so `n = ⌊1000x + 1/2⌋`, computed here as
`(2000·num + den) / (2·den)` on integers), printed with three decimals. -/
def toFixed3Nonneg (q : ℚ) : String :=
  let n : Nat := ((2000 * q.num + (q.den : Int)) / (2 * (q.den : Int))).toNat
  toString (n / 1000) ++ "." ++ pad3 (n % 1000)

/-- `num.toFixed(3)` (line 284); the sign is detached first as in the
ECMAScript `toFixed` algorithm.  (JS numbers are IEEE doubles; the finite
values this module formats are modelled as rationals.) -/
def toFixed3 (q : ℚ) : String :=
  if q < 0 then "-" ++ toFixed3Nonneg (-q) else toFixed3Nonneg q

/-- The per-metric-column cell resolution inside `tableData`
(lines 273-287): destructure `metricKey.split(": ")` into the first two
segments, look them up, `'-'` on a missing generator or metric, and format
non-whole numbers with `toFixed(3)`. -/
def resolveMetricCell (headMetrics : ModelHeadMetrics) (metricKey : String) : Cell :=
  let parts := jsSplitColonSpace metricKey
  match parts[0]? with
  | none => Cell.str "-"
  | some metricsType =>
      match objGet metricsType headMetrics with
      | none => Cell.str "-"
      | some metricsValues =>
          match parts[1]? with
          | none => Cell.str "-"
          | some metricName =>
              match objGet metricName metricsValues with
              | none => Cell.str "-"
              | some num => if num.den = 1 then Cell.num num else Cell.str (toFixed3 num)

/-- `true` iff the two-character separator `": "` occurs in the list. -/
def containsColonSpace : List Char → Bool
  | [] => false
  | [_] => false
  | c :: d :: rest => if c = ':' ∧ d = ' ' then true else containsColonSpace (d :: rest)

/-- `Object.values(facetMap)` joined as `val-val-…-`: the list-level image
of `facetStringOf`. -/
def joinDash : List (List Char) → List Char
  | [] => []
  | v :: vs => v ++ '-' :: joinDash vs

/-- Phase of one `addMetrics` invocation with respect to the `pendingCalls`
counter: before the `+= 1` at line 140, in flight, or settled after the
single `-= 1` at line 145 (success) or line 147 (failure). -/
inductive Phase where
  | waiting
  | inflight
  | settled
deriving DecidableEq, BEq, Repr

/-- The shared counter together with the phases of a batch of concurrent
`addMetrics` invocations. -/
structure CounterSys where
  pending : Int
  calls : List Phase
deriving DecidableEq, Repr

/-- Interleaved execution of the counter operations of concurrent
`addMetrics` calls: any waiting call may run its `pendingCalls += 1`
(line 140), and any in-flight call may run its one guaranteed
`pendingCalls -= 1` (line 145 or 147). -/
inductive CStep : CounterSys → CounterSys → Prop
  | inc (p : Int) (pre post : List Phase) :
      CStep ⟨p, pre ++ Phase.waiting :: post⟩ ⟨p + 1, pre ++ Phase.inflight :: post⟩
  | dec (p : Int) (pre post : List Phase) :
      CStep ⟨p, pre ++ Phase.inflight :: post⟩ ⟨p - 1, pre ++ Phase.settled :: post⟩

/-- Number of calls currently in flight (incremented but not yet settled). -/
def inflightCount : List Phase → Nat
  | [] => 0
  | c :: rest => (if c = Phase.inflight then 1 else 0) + inflightCount rest

/-! ### Association-list (JS object) lemmas -/

theorem objGet_objSet_self (k : String) (v : α) (m : List (String × α)) :
    objGet k (objSet k v m) = some v := by
  induction m with
  | nil => simp [objGet, objSet]
  | cons p rest ih =>
      by_cases h : p.1 = k
      · simp [objGet, objSet, h]
      · simp [objGet, objSet, h, ih]

theorem objGet_objSet_ne {k' k : String} (h : k' ≠ k) (v : α) (m : List (String × α)) :
    objGet k' (objSet k v m) = objGet k' m := by
  have hkk : ¬k = k' := fun hk => h hk.symm
  induction m with
  | nil => simp [objGet, objSet, hkk]
  | cons p rest ih =>
      by_cases hp : p.1 = k
      · simp [objGet, objSet, hp, hkk]
      · by_cases hp' : p.1 = k'
        · simp [objGet, objSet, hp, hp', h]
        · simp [objGet, objSet, hp, hp', ih]

theorem objSet_objSet (k : String) (v w : α) (m : List (String × α)) :
    objSet k v (objSet k w m) = objSet k v m := by
  induction m with
  | nil => simp [objSet]
  | cons p rest ih =>
      by_cases h : p.1 = k
      · simp [objSet, h]
      · simp [objSet, h, ih]

/-- Closed form of one upsert (lines 159-180): the row at the derived key is
freshly built when absent, otherwise updated in place; nothing else moves. -/
theorem applyResponse_eq (model name : String) (facetMap : Option FacetMap) (source : Source)
    (exampleIds : List String) (metricsType : String) (resp : MetricsResponse)
    (m : MetricsMap) :
    applyResponse model name facetMap source exampleIds metricsType resp m =
      objSet (getRowKey model name resp.pred_key facetMap)
        (match objGet (getRowKey model name resp.pred_key facetMap) m with
         | none =>
             { model := model, selection := name, predKey := resp.pred_key,
               exampleIds := exampleIds,
               headMetrics := objSet metricsType resp.metrics [], source := source,
               facets := facetMap }
         | some row =>
             { row with exampleIds := exampleIds,
                        headMetrics := objSet metricsType resp.metrics row.headMetrics })
        m := by
  unfold applyResponse
  cases h : objGet (getRowKey model name resp.pred_key facetMap) m with
  | none =>
      simp only [h, objGet_objSet_self, objSet_objSet]
  | some row =>
      simp only [h]

/-- C5: an upsert inserts a fresh row when the key is absent; otherwise it
replaces `exampleIds` wholesale and merges `headMetrics` at the
metrics-generator level (the incoming generator's entry replaced wholesale,
other generators untouched); rows at other keys are untouched. -/
theorem applyResponse_upsert_spec (model name : String) (facetMap : Option FacetMap)
    (source : Source) (exampleIds : List String) (metricsType : String)
    (resp : MetricsResponse) (m : MetricsMap) :
    (objGet (getRowKey model name resp.pred_key facetMap) m = none →
       objGet (getRowKey model name resp.pred_key facetMap)
           (applyResponse model name facetMap source exampleIds metricsType resp m) =
         some { model := model, selection := name, predKey := resp.pred_key,
                exampleIds := exampleIds,
                headMetrics := [(metricsType, resp.metrics)], source := source,
                facets := facetMap }) ∧
    (∀ row, objGet (getRowKey model name resp.pred_key facetMap) m = some row →
       objGet (getRowKey model name resp.pred_key facetMap)
           (applyResponse model name facetMap source exampleIds metricsType resp m) =
         some { row with exampleIds := exampleIds,
                         headMetrics := objSet metricsType resp.metrics row.headMetrics }) ∧
    (∀ k', k' ≠ getRowKey model name resp.pred_key facetMap →
       objGet k' (applyResponse model name facetMap source exampleIds metricsType resp m) =
         objGet k' m) ∧
    (∀ (hm : ModelHeadMetrics) (v : MetricsValues),
       objGet metricsType (objSet metricsType v hm) = some v ∧
       ∀ g, g ≠ metricsType → objGet g (objSet metricsType v hm) = objGet g hm) := by
  refine ⟨?_, ?_, ?_, ?_⟩
  · intro h
    rw [applyResponse_eq, h, objGet_objSet_self]
    rfl
  · intro row h
    rw [applyResponse_eq, h, objGet_objSet_self]
  · intro k' h
    rw [applyResponse_eq, objGet_objSet_ne h]
  · intro hm v
    exact ⟨objGet_objSet_self _ _ _, fun g hg => objGet_objSet_ne hg _ _⟩

/-- C5 witness: on an empty store the row is inserted; on the resulting
store the same upsert finds the row and updates it in place. -/
theorem applyResponse_upsert_spec_witness :
    objGet (getRowKey "m" "dataset" "p" none)
        (applyResponse "m" "dataset" none Source.dataset ["e1"] "cls"
          { pred_key := "p", label_key := "l", metrics := [("acc", (4 : ℚ))] } []) =
      some { model := "m", selection := "dataset", predKey := "p",
             exampleIds := ["e1"], headMetrics := [("cls", [("acc", (4 : ℚ))])],
             source := Source.dataset, facets := none } :=
  (applyResponse_upsert_spec "m" "dataset" none Source.dataset ["e1"] "cls"
    { pred_key := "p", label_key := "l", metrics := [("acc", (4 : ℚ))] } []).1 rfl

/-- C9: one upsert is idempotent: running the very same per-response upsert
twice leaves the store exactly as running it once. -/
theorem applyResponse_idempotent (model name : String) (facetMap : Option FacetMap)
    (source : Source) (exampleIds : List String) (metricsType : String)
    (resp : MetricsResponse) (m : MetricsMap) :
    applyResponse model name facetMap source exampleIds metricsType resp
        (applyResponse model name facetMap source exampleIds metricsType resp m) =
      applyResponse model name facetMap source exampleIds metricsType resp m := by
  simp only [applyResponse_eq]
  cases h : objGet (getRowKey model name resp.pred_key facetMap) m with
  | none => simp [h, objGet_objSet_self, objSet_objSet]
  | some row => simp [h, objGet_objSet_self, objSet_objSet]

/-- C10: when an upsert hits a key that is already present, only
`exampleIds` and the incoming generator's `headMetrics` entry change; the
stored `model`, `selection`, `predKey`, `source` and `facets` keep the
values of the first insertion, whatever the incoming call carries. -/
theorem applyResponse_preserves_identity_fields (model name : String)
    (facetMap : Option FacetMap) (source : Source) (exampleIds : List String)
    (metricsType : String) (resp : MetricsResponse) (m : MetricsMap) (row : MetricsRow)
    (h : objGet (getRowKey model name resp.pred_key facetMap) m = some row) :
    ∃ row',
      objGet (getRowKey model name resp.pred_key facetMap)
          (applyResponse model name facetMap source exampleIds metricsType resp m) =
        some row' ∧
      row'.model = row.model ∧ row'.selection = row.selection ∧
      row'.predKey = row.predKey ∧ row'.source = row.source ∧
      row'.facets = row.facets ∧ row'.exampleIds = exampleIds ∧
      row'.headMetrics = objSet metricsType resp.metrics row.headMetrics := by
  refine ⟨{ row with exampleIds := exampleIds,
                     headMetrics := objSet metricsType resp.metrics row.headMetrics },
    ?_, rfl, rfl, rfl, rfl, rfl, rfl, rfl⟩
  rw [applyResponse_eq, h, objGet_objSet_self]

/-- C10 witness: the key does not encode the model/selection boundary, so an
incoming call with model `"a"`, selection `"b-x"` hits the row stored for
model `"a-b"`, selection `"x"`; all identity fields stay as first stored. -/
theorem applyResponse_preserves_identity_fields_witness :
    ∃ row',
      objGet (getRowKey "a" "b-x" "p" none)
          (applyResponse "a" "b-x" none Source.selection ["e2"] "cls"
            { pred_key := "p", label_key := "l", metrics := [] }
            [("a-b-x-p-",
              { model := "a-b", selection := "x", predKey := "p",
                exampleIds := ["e1"], headMetrics := [], source := Source.dataset,
                facets := none })]) =
        some row' ∧
      row'.model = "a-b" ∧ row'.selection = "x" ∧ row'.predKey = "p" ∧
      row'.source = Source.dataset ∧ row'.facets = none ∧
      row'.exampleIds = ["e2"] ∧ row'.headMetrics = [("cls", [])] :=
  applyResponse_preserves_identity_fields "a" "b-x" none Source.selection ["e2"] "cls"
    { pred_key := "p", label_key := "l", metrics := [] } _
    { model := "a-b", selection := "x", predKey := "p", exampleIds := ["e1"],
      headMetrics := [], source := Source.dataset, facets := none } (by decide)

/-! ### Counter-protocol lemmas -/

theorem inflightCount_append (a b : List Phase) :
    inflightCount (a ++ b) = inflightCount a + inflightCount b := by
  induction a with
  | nil => simp [inflightCount]
  | cons c rest ih => simp [inflightCount, ih]; omega

theorem inflightCount_replicate_waiting (n : Nat) :
    inflightCount (List.replicate n Phase.waiting) = 0 := by
  induction n with
  | zero => rfl
  | succ k ih => simp [List.replicate_succ, inflightCount, ih]

theorem inflightCount_eq_zero_of_settled (l : List Phase)
    (h : ∀ c ∈ l, c = Phase.settled) : inflightCount l = 0 := by
  induction l with
  | nil => rfl
  | cons c rest ih =>
      have hc : c = Phase.settled := h c (List.mem_cons_self c rest)
      subst hc
      simp [inflightCount, ih fun d hd => h d (List.mem_cons_of_mem _ hd)]

/-- The counter invariant: starting from `pendingCalls = 0` and a batch of
waiting calls, after any interleaving the counter equals the number of
in-flight calls. -/
theorem creach_pending (n : Nat) (s : CounterSys)
    (h : Relation.ReflTransGen CStep
      { pending := 0, calls := List.replicate n Phase.waiting } s) :
    s.pending = (inflightCount s.calls : Int) := by
  induction h with
  | refl => simp [inflightCount_replicate_waiting]
  | tail hR hstep ih =>
      cases hstep with
      | inc p pre post =>
          simp only [inflightCount_append, inflightCount] at ih ⊢
          simp at ih ⊢
          omega
      | dec p pre post =>
          simp only [inflightCount_append, inflightCount] at ih ⊢
          simp at ih ⊢
          omega

/-- C2: each `addMetrics` call leaves `pendingCalls` where it found it
(incremented once at line 140, decremented exactly once at line 145 or 147,
on the success and on the failure path alike); and under any interleaving of
a batch of concurrent calls the counter, started at zero, never goes
negative and returns to zero once every call has settled. -/
theorem addMetrics_pending_balanced :
    (∀ (st : ModState) (models : List String) (datapoints : List IndexedInput)
       (source : Source) (facetMap : Option FacetMap) (displayName : Option String)
       (fetch : Except Unit (List ModelResponse)),
       ((addMetrics st models datapoints source facetMap displayName fetch).1).pendingCalls =
         st.pendingCalls) ∧
    (∀ (n : Nat) (s : CounterSys),
       Relation.ReflTransGen CStep
           { pending := 0, calls := List.replicate n Phase.waiting } s →
       0 ≤ s.pending ∧ ((∀ c ∈ s.calls, c = Phase.settled) → s.pending = 0)) := by
  constructor
  · intro st models dps src fm dn fetch
    simp only [addMetrics]
    omega
  · intro n s h
    have hinv := creach_pending n s h
    refine ⟨by omega, fun hall => ?_⟩
    rw [hinv, inflightCount_eq_zero_of_settled s.calls hall]
    rfl

/-- C2 witness: a concrete interleaving of two calls (inc, inc, dec, dec)
ends all-settled with the counter back at zero; and a concrete failed call
leaves `pendingCalls` at its initial value 7. -/
theorem addMetrics_pending_balanced_witness :
    ((addMetrics { metricsMap := [], pendingCalls := 7 } ["m1", "m2"]
        [{ id := "e" }] Source.dataset none none (Except.error ())).1).pendingCalls = 7 ∧
    (0 ≤ ({ pending := 0, calls := [Phase.settled, Phase.settled] } : CounterSys).pending ∧
     ((∀ c ∈ ({ pending := 0, calls := [Phase.settled, Phase.settled] } : CounterSys).calls,
         c = Phase.settled) →
       ({ pending := 0, calls := [Phase.settled, Phase.settled] } : CounterSys).pending = 0)) := by
  refine ⟨addMetrics_pending_balanced.1 _ ["m1", "m2"] [{ id := "e" }] Source.dataset
    none none (Except.error ()), addMetrics_pending_balanced.2 2 _ ?_⟩
  refine Relation.ReflTransGen.head (CStep.inc 0 [] [Phase.waiting]) ?_
  refine Relation.ReflTransGen.head (CStep.inc (0 + 1) [Phase.inflight] []) ?_
  refine Relation.ReflTransGen.head (CStep.dec (0 + 1 + 1) [] [Phase.inflight]) ?_
  exact Relation.ReflTransGen.single (CStep.dec (0 + 1 + 1 - 1) [Phase.settled] [])

/-- C3: if any request of a non-empty batch fails, the `Promise.all` rejects,
the `catch` still decrements the counter, the whole batch is discarded (the
store keeps its prior state), and no error escapes to the caller. -/
theorem addMetrics_failure_discards (st : ModState) (models : List String)
    (datapoints : List IndexedInput) (source : Source) (facetMap : Option FacetMap)
    (displayName : Option String) (h : datapoints ≠ []) :
    (addMetrics st models datapoints source facetMap displayName
        (Except.error ())).1.metricsMap = st.metricsMap ∧
    (addMetrics st models datapoints source facetMap displayName
        (Except.error ())).1.pendingCalls = st.pendingCalls ∧
    (addMetrics st models datapoints source facetMap displayName
        (Except.error ())).2 = Except.ok () := by
  have he : datapoints.isEmpty = false := by
    cases datapoints with
    | nil => exact absurd rfl h
    | cons d rest => rfl
  refine ⟨?_, ?_, ?_⟩ <;>
    simp [addMetrics, he, List.zip_nil_right, processAll]

/-- C3 witness: a concrete failed one-model batch over one datapoint. -/
theorem addMetrics_failure_discards_witness :
    (addMetrics { metricsMap := [], pendingCalls := 2 } ["m"] [{ id := "e" }]
        Source.dataset none none (Except.error ())).1.metricsMap = [] ∧
    (addMetrics { metricsMap := [], pendingCalls := 2 } ["m"] [{ id := "e" }]
        Source.dataset none none (Except.error ())).1.pendingCalls = 2 ∧
    (addMetrics { metricsMap := [], pendingCalls := 2 } ["m"] [{ id := "e" }]
        Source.dataset none none (Except.error ())).2 = Except.ok () :=
  addMetrics_failure_discards { metricsMap := [], pendingCalls := 2 } ["m"]
    [{ id := "e" }] Source.dataset none none (by decide)

/-- C4 (the code, not the claim): with an empty example list and one active
model, no request is issued (`getMetrics` returns early, so the result does
not depend on `fetch`) and the store is untouched, but `pendingCalls` is
still incremented and then decremented, and the response walk hits
`Object.keys(undefined)` and throws a `TypeError` (`.error ()`): the call is
not the no-op the claim demands. -/
theorem addMetrics_empty_throws :
    ∀ fetch, addMetrics { metricsMap := [], pendingCalls := 0 } ["m"] [] Source.dataset
        none none fetch = ({ metricsMap := [], pendingCalls := 0 }, Except.error ()) :=
  fun _ => rfl

/-- C6 counterexample: a faceted Selection-sourced row is deleted by the
selection-change purge, contradicting the claim that rows carrying a
`facets` value are left unchanged by it. -/
theorem selectionPurge_purges_faceted :
    selectionPurge [("k",
      { model := "m", selection := "selection (faceted)", predKey := "p",
        exampleIds := ["e"], headMetrics := [], source := Source.selection,
        facets := some [("f", "v")] })] = [] ∧
    (some [("f", "v")] : Option FacetMap) ≠ none :=
  ⟨rfl, by decide⟩

/-- C6 amended: the selection-change purge removes every Selection-sourced
row, faceted or not, and keeps exactly the rows of other sources. -/
theorem selectionPurge_spec (m : MetricsMap) (k : String) (r : MetricsRow) :
    (k, r) ∈ selectionPurge m ↔ ((k, r) ∈ m ∧ r.source ≠ Source.selection) := by
  have hb : (!isSelectionSource r.source) = true ↔ r.source ≠ Source.selection := by
    cases r.source <;> simp [isSelectionSource]
  simp [selectionPurge, List.mem_filter, hb]

/-- C7: `updateAllFacetedMetrics` first evicts exactly the rows carrying a
facet map; it schedules no re-aggregation when no facet dimension is
selected, and with at least one dimension it schedules one `addMetrics` per
group for the current selection and then for the full dataset. -/
theorem updateAllFacetedMetrics_spec
    (group : List IndexedInput → List String → List (List IndexedInput × FacetMap))
    (selectedFacets : List String) (selData dsData : List IndexedInput) (m : MetricsMap) :
    (∀ (k : String) (r : MetricsRow),
       (k, r) ∈ (updateAllFacetedMetrics group selectedFacets selData dsData m).1 ↔
         ((k, r) ∈ m ∧ r.facets = none)) ∧
    (selectedFacets = [] →
       (updateAllFacetedMetrics group selectedFacets selData dsData m).2 = []) ∧
    (selectedFacets ≠ [] →
       (updateAllFacetedMetrics group selectedFacets selData dsData m).2 =
         ((group selData selectedFacets).map fun g =>
             { datapoints := g.1, source := Source.selection, facetMap := some g.2 }) ++
           ((group dsData selectedFacets).map fun g =>
             { datapoints := g.1, source := Source.dataset, facetMap := some g.2 })) := by
  refine ⟨?_, ?_, ?_⟩
  · intro k r
    simp [updateAllFacetedMetrics, List.mem_filter, Option.isNone_iff_eq_none]
  · intro h
    subst h
    simp [updateAllFacetedMetrics]
  · intro h
    have hl : 0 < selectedFacets.length := by
      cases selectedFacets with
      | nil => exact absurd rfl h
      | cons a rest => simp
    simp [updateAllFacetedMetrics, updateFacetedMetrics, hl]

/-- C7 witness: with no facet dimension selected, no re-aggregation call is
scheduled. -/
theorem updateAllFacetedMetrics_spec_witness :
    (updateAllFacetedMetrics (fun _ _ => []) [] [] []
        [("k", { model := "m", selection := "s", predKey := "p", exampleIds := [],
                 headMetrics := [], source := Source.dataset,
                 facets := some [("f", "v")] })]).2 = [] :=
  (updateAllFacetedMetrics_spec (fun _ _ => []) [] [] []
    [("k", { model := "m", selection := "s", predKey := "p", exampleIds := [],
             headMetrics := [], source := Source.dataset,
             facets := some [("f", "v")] })]).2.1 rfl

/-! ### `split(": ")` lemmas -/

theorem splitColon_eq_self {l : List Char} (h : containsColonSpace l = false) :
    splitColon l = [l] := by
  induction l with
  | nil => rfl
  | cons c rest ih =>
      cases rest with
      | nil => rfl
      | cons d rest' =>
          by_cases hcd : c = ':' ∧ d = ' '
          · rw [containsColonSpace, if_pos hcd] at h
            exact absurd h (by simp)
          · rw [containsColonSpace, if_neg hcd] at h
            rw [splitColon, if_neg hcd, ih h]

theorem splitColon_append {g : List Char} (n : List Char)
    (h : containsColonSpace g = false) :
    splitColon (g ++ ':' :: ' ' :: n) = g :: splitColon n := by
  induction g with
  | nil => simp [splitColon]
  | cons c g' ih =>
      cases g' with
      | nil =>
          have hcd : ¬(c = ':' ∧ ':' = ' ') := by simp
          simp only [List.cons_append, List.nil_append]
          rw [splitColon, if_neg hcd]
          simp [splitColon]
      | cons d g'' =>
          by_cases hcd : c = ':' ∧ d = ' '
          · rw [containsColonSpace, if_pos hcd] at h
            exact absurd h (by simp)
          · rw [containsColonSpace, if_neg hcd] at h
            simp only [List.cons_append]
            rw [splitColon, if_neg hcd]
            have := ih h
            simp only [List.cons_append] at this
            rw [this]

theorem jsSplit_key (g n : String) (hg : containsColonSpace g.data = false)
    (hn : containsColonSpace n.data = false) :
    jsSplitColonSpace (g ++ ": " ++ n) = [g, n] := by
  have hdata : (g ++ ": " ++ n).data = g.data ++ ':' :: ' ' :: n.data := by
    simp [String.data_append]
  unfold jsSplitColonSpace
  rw [hdata, splitColon_append n.data hg, splitColon_eq_self hn]
  rfl

/-- C8 amended: for metric columns whose generator name and metric name are
free of the `": "` separator, the cell is `'-'` exactly when the row lacks
the generator or the metric, and otherwise the value, rendered as-is when
whole and as `toFixed(3)` otherwise (`0.5` gives `"0.500"`, `4` stays a
number). -/
theorem resolveMetricCell_spec (g n : String)
    (hg : containsColonSpace g.data = false) (hn : containsColonSpace n.data = false) :
    (∀ hm : ModelHeadMetrics, objGet g hm = none →
       resolveMetricCell hm (g ++ ": " ++ n) = Cell.str "-") ∧
    (∀ (hm : ModelHeadMetrics) (mv : MetricsValues), objGet g hm = some mv →
       objGet n mv = none → resolveMetricCell hm (g ++ ": " ++ n) = Cell.str "-") ∧
    (∀ (hm : ModelHeadMetrics) (mv : MetricsValues) (num : ℚ), objGet g hm = some mv →
       objGet n mv = some num →
       resolveMetricCell hm (g ++ ": " ++ n) =
         (if num.den = 1 then Cell.num num else Cell.str (toFixed3 num))) ∧
    resolveMetricCell [("g", [("m", mkRat 1 2)])] ("g" ++ ": " ++ "m") =
      Cell.str "0.500" ∧
    resolveMetricCell [("g", [("m", (4 : ℚ))])] ("g" ++ ": " ++ "m") = Cell.num 4 := by
  have hk := jsSplit_key g n hg hn
  refine ⟨?_, ?_, ?_, by decide, by decide⟩
  · intro hm h
    simp [resolveMetricCell, hk, h]
  · intro hm mv h1 h2
    simp [resolveMetricCell, hk, h1, h2]
  · intro hm mv num h1 h2
    simp [resolveMetricCell, hk, h1, h2]

/-- C8 witness: a separator-free generator/metric pair resolved to a
formatted value. -/
theorem resolveMetricCell_spec_witness :
    resolveMetricCell [("gen", [("acc", mkRat 1 2)])] ("gen" ++ ": " ++ "acc") =
      (if (mkRat 1 2 : ℚ).den = 1 then Cell.num (mkRat 1 2)
       else Cell.str (toFixed3 (mkRat 1 2))) :=
  (resolveMetricCell_spec "gen" "acc" (by decide) (by decide)).2.2.1
    [("gen", [("acc", mkRat 1 2)])] [("acc", mkRat 1 2)] (mkRat 1 2) (by decide) (by decide)

/-- C8 counterexample: the column identifier of generator `"a: b"` and
metric `"c"` is split at every `": "`, so the lookup misses an entry that
the row does have, and the cell renders `'-'` instead of `"0.500"`. -/
theorem resolveMetricCell_colon_collision :
    resolveMetricCell [("a: b", [("c", mkRat 1 2)])] ("a: b" ++ ": " ++ "c") =
      Cell.str "-" ∧
    objGet "a: b" [("a: b", [("c", mkRat 1 2)])] = some [("c", mkRat 1 2)] ∧
    objGet "c" [("c", mkRat 1 2)] = some (mkRat 1 2) ∧
    (mkRat 1 2 : ℚ).den ≠ 1 ∧
    toFixed3 (mkRat 1 2) = "0.500" ∧
    Cell.str "-" ≠ Cell.str "0.500" :=
  ⟨by decide, by decide, by decide, by decide, by decide, by decide⟩

/-! ### Dash-delimited key lemmas -/

theorem string_data_inj {s t : String} (h : s.data = t.data) : s = t := by
  cases s
  cases t
  exact congrArg String.mk h

theorem append_dash_inj {a b r s : List Char} (ha : '-' ∉ a) (hb : '-' ∉ b)
    (h : a ++ '-' :: r = b ++ '-' :: s) : a = b ∧ r = s := by
  induction a generalizing b with
  | nil =>
      cases b with
      | nil => simpa using h
      | cons c b' =>
          simp only [List.nil_append, List.cons_append] at h
          obtain ⟨hc, -⟩ := List.cons_eq_cons.mp h
          exact absurd (hc ▸ List.mem_cons_self c b') hb
  | cons c a' ih =>
      cases b with
      | nil =>
          simp only [List.nil_append, List.cons_append] at h
          obtain ⟨hc, -⟩ := List.cons_eq_cons.mp h
          exact absurd (hc ▸ List.mem_cons_self c a') ha
      | cons d b' =>
          simp only [List.cons_append] at h
          obtain ⟨hc, ht⟩ := List.cons_eq_cons.mp h
          have ha' : '-' ∉ a' := fun hm => ha (List.mem_cons_of_mem _ hm)
          have hb' : '-' ∉ b' := fun hm => hb (List.mem_cons_of_mem _ hm)
          obtain ⟨h1, h2⟩ := ih ha' hb' ht
          exact ⟨by rw [hc, h1], h2⟩

theorem joinDash_inj {vs ws : List (List Char)} (hv : ∀ v ∈ vs, '-' ∉ v)
    (hw : ∀ w ∈ ws, '-' ∉ w) (h : joinDash vs = joinDash ws) : vs = ws := by
  induction vs generalizing ws with
  | nil =>
      cases ws with
      | nil => rfl
      | cons w ws' =>
          rw [joinDash, joinDash] at h
          exact absurd h.symm (by simp)
  | cons v vs' ih =>
      cases ws with
      | nil =>
          rw [joinDash, joinDash] at h
          exact absurd h (by simp)
      | cons w ws' =>
          rw [joinDash, joinDash] at h
          obtain ⟨h1, h2⟩ := append_dash_inj (hv v (List.mem_cons_self v vs'))
            (hw w (List.mem_cons_self w ws')) h
          have hv' : ∀ x ∈ vs', '-' ∉ x := fun x hx => hv x (List.mem_cons_of_mem _ hx)
          have hw' : ∀ x ∈ ws', '-' ∉ x := fun x hx => hw x (List.mem_cons_of_mem _ hx)
          rw [h1, ih hv' hw' h2]

theorem foldl_dash_data (l : List String) (acc : String) :
    (l.foldl (fun a v => a ++ v ++ "-") acc).data =
      acc.data ++ joinDash (l.map fun v => v.data) := by
  induction l generalizing acc with
  | nil => simp [joinDash]
  | cons v l' ih =>
      simp only [List.foldl_cons, List.map_cons, joinDash]
      rw [ih]
      simp [String.data_append]

theorem facetStringOf_data (f : Option FacetMap) :
    (facetStringOf f).data = joinDash ((facetValues f).map fun v => v.data) := by
  cases f with
  | none => rfl
  | some fm =>
      show (fm.foldl (fun acc p => acc ++ p.2 ++ "-") "").data = _
      have h := foldl_dash_data (fm.map fun p => p.2) ""
      rw [List.foldl_map] at h
      simpa [facetValues] using h

/-- C1 amended: `getRowKey` is deterministic — and, restricted to inputs
whose components are free of the delimiter `'-'`, it is injective up to the
ordered list of facet values (facet feature names are never read, and an
absent facet map is indistinguishable from an empty one). -/
theorem getRowKey_dashFree_inj (m1 d1 p1 : String) (f1 : Option FacetMap)
    (m2 d2 p2 : String) (f2 : Option FacetMap)
    (hm1 : '-' ∉ m1.data) (hm2 : '-' ∉ m2.data)
    (hd1 : '-' ∉ d1.data) (hd2 : '-' ∉ d2.data)
    (hp1 : '-' ∉ p1.data) (hp2 : '-' ∉ p2.data)
    (hf1 : ∀ v ∈ facetValues f1, '-' ∉ v.data)
    (hf2 : ∀ v ∈ facetValues f2, '-' ∉ v.data) :
    getRowKey m1 d1 p1 f1 = getRowKey m2 d2 p2 f2 ↔
      (m1 = m2 ∧ d1 = d2 ∧ p1 = p2 ∧ facetValues f1 = facetValues f2) := by
  constructor
  · intro h
    have hdash : ("-" : String).data = ['-'] := rfl
    have hd := congrArg String.data h
    simp only [getRowKey, String.data_append, hdash, List.append_assoc,
      List.singleton_append] at hd
    obtain ⟨h1, hrest⟩ := append_dash_inj hm1 hm2 hd
    obtain ⟨h2, hrest2⟩ := append_dash_inj hd1 hd2 hrest
    obtain ⟨h3, hrest3⟩ := append_dash_inj hp1 hp2 hrest2
    rw [facetStringOf_data, facetStringOf_data] at hrest3
    have hmaps := joinDash_inj
      (fun v hv => by
        obtain ⟨w, hw, rfl⟩ := List.mem_map.mp hv
        exact hf1 w hw)
      (fun v hv => by
        obtain ⟨w, hw, rfl⟩ := List.mem_map.mp hv
        exact hf2 w hw)
      hrest3
    have hinj : Function.Injective String.data := fun a b hab => string_data_inj hab
    exact ⟨string_data_inj h1, string_data_inj h2, string_data_inj h3,
      List.map_injective_iff.mpr hinj hmaps⟩
  · rintro ⟨rfl, rfl, rfl, hf⟩
    have hfs : facetStringOf f1 = facetStringOf f2 :=
      string_data_inj (by rw [facetStringOf_data, facetStringOf_data, hf])
    rw [getRowKey, getRowKey, hfs]

/-- C1 witness: two facet maps with different feature names but the same
values collide only because the key ignores the names — the amended
equivalence derives the key equality from the equal value lists. -/
theorem getRowKey_dashFree_inj_witness :
    getRowKey "m" "d" "p" (some [("a", "x")]) =
      getRowKey "m" "d" "p" (some [("b", "x")]) :=
  (getRowKey_dashFree_inj "m" "d" "p" (some [("a", "x")]) "m" "d" "p" (some [("b", "x")])
    (by decide) (by decide) (by decide) (by decide) (by decide) (by decide)
    (by decide) (by decide)).mpr ⟨rfl, rfl, rfl, rfl⟩

/-- C1 counterexample: no escaping is performed, so distinct semantic inputs
(model `"a-b"`, selection `"c"` versus model `"a"`, selection `"b-c"`)
produce the same key. -/
theorem getRowKey_collision :
    getRowKey "a-b" "c" "p" none = getRowKey "a" "b-c" "p" none ∧
    ¬("a-b" = "a" ∧ "c" = "b-c") :=
  ⟨by decide, by decide⟩

end MetricsMod
